import Mathlib

/-!
Shallow embedding of `node-cache-manager-mongodb` (src/index.js), a MongoDB
cache-store adapter.  JavaScript values that flow through the adapter are
modelled by `JSVal`; the MongoDB collection is modelled as a list of cache
documents; each adapter operation (`get`, `set`, `del`, `reset`,
`isCacheableValue`) is translated into a pure state-passing function.  The
external zlib codec (`zlib.gzip` / `zlib.gunzip`) is a parameter of the
operations that use it, so theorems quantify over any codec; concrete
witnesses instantiate it with an explicit invertible encoding.
-/

set_option autoImplicit false

namespace MongoCache

/-- Model of the JavaScript values the adapter handles: the two empty
sentinels, booleans, numbers, strings, and binary blobs
(`Buffer`, modelled as a list of bytes). -/
inductive JSVal where
  | vNull
  | vUndefined
  | vBool (b : Bool)
  | vNum (n : Int)
  | vStr (s : String)
  | vBuf (bytes : List Nat)
  deriving DecidableEq, Repr

/-- `Buffer.isBuffer(v)` (used at src/index.js:108): true exactly on binary
blobs. -/
def jsIsBuffer : JSVal → Bool
  | .vBuf _ => true
  | _ => false

/-- One persisted cache document, `{key, value, expiresAt, compressed?}`
(src/index.js:211-215).  An absent `compressed` field is modelled as
`false` (both are falsy in the JavaScript reads). -/
structure CacheDoc where
  key : String
  value : JSVal
  expiresAt : Int
  compressed : Bool
  deriving DecidableEq, Repr

/-- Adapter instance state: the `compression` flag (src/index.js:74), the
store-level `MongoOptions.ttl` (`none` when undefined), and the backing
collection modelled as a list of documents. -/
structure MongoStoreState where
  compression : Bool
  ttl : Option Int
  collection : List CacheDoc
  deriving DecidableEq, Repr

/-- `collection.findOne({key: key}, ...)` (src/index.js:156-158): the first
document whose `key` field equals the requested key, if any. -/
def findOne : List CacheDoc → String → Option CacheDoc
  | [], _ => none
  | d :: ds, k => if d.key = k then some d else findOne ds k

/-- `collection.update(query, data, {upsert: true, safe: true}, ...)`
(src/index.js:201-208, 232): replace the first document matching the key,
or insert the new document when none matches. -/
def collectionUpdate : List CacheDoc → String → CacheDoc → List CacheDoc
  | [], _, doc => [doc]
  | d :: ds, k, doc => if d.key = k then doc :: ds else d :: collectionUpdate ds k doc

/-- `collection.remove({key: key}, {safe: true}, fn)` (src/index.js:259-263):
remove every document matching the key; also yields the number of
documents removed, which the driver reports to the callback. -/
def collectionRemove : List CacheDoc → String → List CacheDoc × Nat
  | [], _ => ([], 0)
  | d :: ds, k =>
    let rest := collectionRemove ds k
    if d.key = k then (rest.1, rest.2 + 1) else (d :: rest.1, rest.2)

/-- TTL selection of src/index.js:199,
`(options && (options.ttl || options.ttl === 0)) ? options.ttl : store.MongoOptions.ttl`:
a per-call `options.ttl` (any number, zero included, is either truthy or
`=== 0`) takes precedence; otherwise the store-level TTL (possibly
undefined). -/
def selectTtl : Option Int → Option Int → Option Int
  | some t, _ => some t
  | none, storeTtl => storeTtl

/-- The `(ttl || 60)` subexpression of src/index.js:214: an undefined TTL and
a zero TTL are both falsy in JavaScript, so both fall back to 60; every
other number is used as is. -/
def ttlOr60 : Option Int → Int
  | some t => if t = 0 then 60 else t
  | none => 60

/-- Effective TTL in seconds a `set` call ends up using: the selected TTL of
src/index.js:199 passed through the `(ttl || 60)` fallback of
src/index.js:214. -/
def effectiveTtl (optTtl storeTtl : Option Int) : Int :=
  ttlOr60 (selectTtl optTtl storeTtl)

/-- `store.compress(data, fn)` (src/index.js:106-122), with `zlib.gzip`
passed as the `gzip` parameter.  A non-Buffer value is passed through
untouched; a Buffer is gzipped and on success the document's value is
replaced by the compressed bytes and the `compressed` flag set.  On a gzip
error the JavaScript hands `fn` both the error and the unmodified
document; the only caller (`set`, src/index.js:223-228) returns the error
and discards the document, so the error alone is modelled. -/
def compress (gzip : List Nat → Except String (List Nat)) (data : CacheDoc) :
    Except String CacheDoc :=
  match data.value with
  | .vBuf bytes =>
    match gzip bytes with
    | .ok c => .ok { data with value := .vBuf c, compressed := true }
    | .error e => .error e
  | _ => .ok data

/-- `store.decompress(value, fn)` (src/index.js:131-134), with `zlib.gunzip`
passed as the `gunzip` parameter.  A stored binary value (whether raw
bytes or a BSON `Binary` wrapper exposing `.buffer`, which both collapse
to `vBuf` in this model) is gunzipped; feeding anything else to
`zlib.gunzip` produces an error. -/
def decompressVal (gunzip : List Nat → Except String (List Nat)) :
    JSVal → Except String (List Nat)
  | .vBuf bytes => gunzip bytes
  | _ => .error "gunzip: invalid input"

/-- The `_update` callback of src/index.js:232-240: a store error is
propagated, a falsy driver result yields `fn(null, null)`, and a truthy
result yields `fn(null, val)` with the caller's original value. -/
def updateCallback (val : JSVal) (resp : Except String (Option Unit)) :
    Except String (Option JSVal) :=
  match resp with
  | .error e => .error e
  | .ok none => .ok none
  | .ok (some _) => .ok (some val)

/-- `MongoStore.prototype.set` (src/index.js:190-243) against a
normally-operating driver (each upsert succeeds and affects one
document).  Builds `{key, value, expiresAt: Date.now() + ((ttl || 60) * 1000)}`,
optionally compresses it, and upserts by key; yields the new state and
the callback outcome.  `optTtl` is `options.ttl` (`none` when no options
object or no `ttl` field is supplied). -/
def set (gzip : List Nat → Except String (List Nat)) (now : Int)
    (st : MongoStoreState) (key : String) (val : JSVal) (optTtl : Option Int) :
    MongoStoreState × Except String (Option JSVal) :=
  let data : CacheDoc :=
    { key := key, value := val,
      expiresAt := now + effectiveTtl optTtl st.ttl * 1000, compressed := false }
  if st.compression = false then
    ({ st with collection := collectionUpdate st.collection key data },
      updateCallback val (.ok (some ())))
  else
    match compress gzip data with
    | .error e => (st, .error e)
    | .ok d =>
      ({ st with collection := collectionUpdate st.collection key d },
        updateCallback val (.ok (some ())))

/-- `MongoStore.prototype.del` (src/index.js:253-264): remove every document
matching the key; the driver result (here the removal count) is passed to
the callback unchanged, and a missing key is not an error. -/
def del (st : MongoStoreState) (key : String) :
    MongoStoreState × Except String Nat :=
  let r := collectionRemove st.collection key
  ({ st with collection := r.1 }, .ok r.2)

/-- `MongoStore.prototype.get` (src/index.js:146-178): look the key up; a
missing document yields `fn(null, null)`; a document with `expiresAt`
strictly before `Date.now()` triggers `store.del(key)` (fire-and-forget,
its result ignored) and yields `fn(null, null)`; a live compressed
document is decompressed; a live uncompressed document's value is
returned verbatim. -/
def get (gunzip : List Nat → Except String (List Nat)) (now : Int)
    (st : MongoStoreState) (key : String) :
    MongoStoreState × Except String (Option JSVal) :=
  match findOne st.collection key with
  | none => (st, .ok none)
  | some data =>
    if data.expiresAt < now then
      ((del st key).1, .ok none)
    else if data.compressed then
      (st,
        match decompressVal gunzip data.value with
        | .error e => .error e
        | .ok b => .ok (some (.vBuf b)))
    else
      (st, .ok (some data.value))

/-- `MongoStore.prototype.reset` (src/index.js:274-288): whatever the first
argument is (a key, a callback, or nothing), the operation is
`collection.remove({}, {safe: true}, fn)` — it empties the whole
collection; the modelled driver reports the number of removed
documents. -/
def reset (st : MongoStoreState) (keyArg : Option JSVal) :
    MongoStoreState × Except String Nat :=
  ({ st with collection := [] }, .ok st.collection.length)

/-- `MongoStore.prototype.isCacheableValue` (src/index.js:290-292):
`value !== null && value !== undefined`. -/
def isCacheableValue : JSVal → Bool
  | .vNull => false
  | .vUndefined => false
  | _ => true

/-- Shape of the index declared at construction time (src/index.js:82-88):
`collection.createIndex({expiresAt: 1}, {unique: true, background: true,
expireAfterSeconds: store.MongoOptions.ttl}, ...)`. -/
structure IndexSpec where
  field : String
  unique : Bool
  background : Bool
  expireAfterSeconds : Option Int
  deriving DecidableEq, Repr

/-- The one index the adapter creates: on the `expiresAt` field, declared
unique and background, with `expireAfterSeconds` the store-level TTL
(src/index.js:82-88). -/
def cacheIndexSpec (storeTtl : Option Int) : IndexSpec :=
  { field := "expiresAt", unique := true, background := true,
    expireAfterSeconds := storeTtl }

/-! Helper lemmas about the collection operations. -/

/-- An upsert whose document carries the queried key is found by a subsequent
`findOne` on that key. -/
theorem findOne_collectionUpdate (coll : List CacheDoc) (k : String)
    (doc : CacheDoc) (h : doc.key = k) :
    findOne (collectionUpdate coll k doc) k = some doc := by
  induction coll with
  | nil => simp [collectionUpdate, findOne, h]
  | cons d ds ih =>
    by_cases hd : d.key = k
    · simp [collectionUpdate, findOne, hd, h]
    · simp [collectionUpdate, findOne, hd, ih]

/-- Every key present after an upsert was the upserted document's key or was
already present. -/
theorem mem_keys_collectionUpdate (coll : List CacheDoc) (k x : String)
    (doc : CacheDoc) (hx : x ∈ (collectionUpdate coll k doc).map CacheDoc.key) :
    x = doc.key ∨ x ∈ coll.map CacheDoc.key := by
  induction coll with
  | nil => simpa [collectionUpdate] using hx
  | cons d ds ih =>
    simp only [collectionUpdate] at hx
    by_cases hd : d.key = k
    · rw [if_pos hd, List.map_cons, List.mem_cons] at hx
      rcases hx with rfl | hx
      · exact Or.inl rfl
      · exact Or.inr (by simp [hx])
    · rw [if_neg hd, List.map_cons, List.mem_cons] at hx
      rcases hx with rfl | hx
      · exact Or.inr (by simp)
      · rcases ih hx with h | h
        · exact Or.inl h
        · exact Or.inr (by simp [h])

/-- An upsert with a document carrying the queried key keeps the per-key
uniqueness of the collection. -/
theorem nodup_collectionUpdate (coll : List CacheDoc) (k : String)
    (doc : CacheDoc) (hdoc : doc.key = k)
    (h : (coll.map CacheDoc.key).Nodup) :
    ((collectionUpdate coll k doc).map CacheDoc.key).Nodup := by
  induction coll with
  | nil => simp [collectionUpdate]
  | cons d ds ih =>
    rw [List.map_cons, List.nodup_cons] at h
    simp only [collectionUpdate]
    by_cases hd : d.key = k
    · rw [if_pos hd, List.map_cons, List.nodup_cons]
      exact ⟨by rw [hdoc, ← hd]; exact h.1, h.2⟩
    · rw [if_neg hd, List.map_cons, List.nodup_cons]
      refine ⟨fun hmem => ?_, ih h.2⟩
      rcases mem_keys_collectionUpdate ds k d.key doc hmem with heq | hmem'
      · exact hd (heq.trans hdoc)
      · exact h.1 hmem'

/-- The surviving documents of a removal form a sublist of the original
collection. -/
theorem collectionRemove_fst_sublist (coll : List CacheDoc) (k : String) :
    (collectionRemove coll k).1.Sublist coll := by
  induction coll with
  | nil => simp [collectionRemove]
  | cons d ds ih =>
    by_cases hd : d.key = k
    · simpa [collectionRemove, hd] using ih.cons d
    · simpa [collectionRemove, hd] using ih.cons₂ d

/-- Removal only drops documents, so per-key uniqueness is preserved. -/
theorem nodup_collectionRemove (coll : List CacheDoc) (k : String)
    (h : (coll.map CacheDoc.key).Nodup) :
    ((collectionRemove coll k).1.map CacheDoc.key).Nodup :=
  h.sublist ((collectionRemove_fst_sublist coll k).map CacheDoc.key)

/-- Concrete invertible codec used by witnesses: tag the bytes with a leading
zero. -/
def gzipTag : List Nat → Except String (List Nat) := fun b => .ok (0 :: b)

/-- Inverse of `gzipTag`: strip the leading zero tag, failing on any other
input. -/
def gunzipTag : List Nat → Except String (List Nat) := fun c =>
  match c with
  | 0 :: b => .ok b
  | _ => .error "bad gzip data"

/-- Concrete codec used by witnesses needing a compression failure: rejects
the byte string `[9]` and tags every other input. -/
def gzipFlaky : List Nat → Except String (List Nat) := fun b =>
  if b = [9] then .error "boom" else .ok (0 :: b)

/-- The tagging codec round-trips. -/
theorem gzipTag_inv (b c : List Nat) (h : gzipTag b = .ok c) :
    gunzipTag c = .ok b := by
  simp only [gzipTag, Except.ok.injEq] at h
  rw [← h]
  rfl

/-- The flaky codec also round-trips whenever it succeeds. -/
theorem gzipFlaky_inv (b c : List Nat) (h : gzipFlaky b = .ok c) :
    gunzipTag c = .ok b := by
  by_cases hb : b = [9]
  · simp [gzipFlaky, hb] at h
  · simp only [gzipFlaky, if_neg hb, Except.ok.injEq] at h
    rw [← h]
    rfl

/-- A key `findOne` cannot see is removed by `collectionRemove` as a no-op
with count zero. -/
theorem collectionRemove_of_findOne_none (coll : List CacheDoc) (k : String)
    (h : findOne coll k = none) :
    collectionRemove coll k = (coll, 0) := by
  induction coll with
  | nil => rfl
  | cons d ds ih =>
    by_cases hd : d.key = k
    · simp [findOne, hd] at h
    · simp only [findOne, if_neg hd] at h
      simp [collectionRemove, if_neg hd, ih h]

/-- Success payload of a `set` callback outcome, `none` when the outcome was
an error. -/
def cbValue : Except String (Option JSVal) → Option (Option JSVal)
  | .ok r => some r
  | .error _ => none

/-! Path lemmas for `set`: the four ways a `set` call can go. -/

/-- With compression off, `set` upserts the raw document and confirms the
original value. -/
theorem set_nocompress (gzip : List Nat → Except String (List Nat))
    (now : Int) (st : MongoStoreState) (key : String) (val : JSVal)
    (optTtl : Option Int) (hc : st.compression = false) :
    set gzip now st key val optTtl
      = ({ st with collection := collectionUpdate st.collection key ⟨key, val, now + effectiveTtl optTtl st.ttl * 1000, false⟩ },
          .ok (some val)) := by
  simp [set, hc, updateCallback]

/-- With compression on but a non-binary payload, the codec passes the
document through untouched. -/
theorem set_compress_nonbuffer (gzip : List Nat → Except String (List Nat))
    (now : Int) (st : MongoStoreState) (key : String) (val : JSVal)
    (optTtl : Option Int) (hc : st.compression = true)
    (hnb : jsIsBuffer val = false) :
    set gzip now st key val optTtl
      = ({ st with collection := collectionUpdate st.collection key ⟨key, val, now + effectiveTtl optTtl st.ttl * 1000, false⟩ },
          .ok (some val)) := by
  cases val <;> simp_all [set, compress, updateCallback, jsIsBuffer]

/-- With compression on, a binary payload the codec accepts is stored as its
compressed encoding with the `compressed` flag set, while the callback
still receives the original bytes. -/
theorem set_compress_buffer_ok (gzip : List Nat → Except String (List Nat))
    (now : Int) (st : MongoStoreState) (key : String) (bytes c : List Nat)
    (optTtl : Option Int) (hc : st.compression = true)
    (hg : gzip bytes = .ok c) :
    set gzip now st key (.vBuf bytes) optTtl
      = ({ st with collection := collectionUpdate st.collection key ⟨key, .vBuf c, now + effectiveTtl optTtl st.ttl * 1000, true⟩ },
          .ok (some (.vBuf bytes))) := by
  simp [set, hc, compress, hg, updateCallback]

/-- With compression on, a binary payload the codec rejects aborts the call:
the error is reported and no write happens. -/
theorem set_compress_buffer_error (gzip : List Nat → Except String (List Nat))
    (now : Int) (st : MongoStoreState) (key : String) (bytes : List Nat)
    (e : String) (optTtl : Option Int) (hc : st.compression = true)
    (hg : gzip bytes = .error e) :
    set gzip now st key (.vBuf bytes) optTtl = (st, .error e) := by
  simp [set, hc, compress, hg]

/-! Claim theorems. -/

/-- C2: whenever `get` finds a stored document whose `expiresAt` is strictly
in the past, it triggers a `del` of that entry (result ignored) and
reports absence — a null value with no error — so an expired entry is
never returned as a cache hit. -/
theorem C2_get_expired_deletes_and_misses
    (gunzip : List Nat → Except String (List Nat)) (now : Int)
    (st : MongoStoreState) (key : String) (data : CacheDoc)
    (h1 : findOne st.collection key = some data)
    (h2 : data.expiresAt < now) :
    (get gunzip now st key).2 = .ok none ∧
    (get gunzip now st key).1 = (del st key).1 := by
  refine ⟨?_, ?_⟩ <;> simp only [get, h1, if_pos h2]

/-- Witness for C2 at a concrete expired entry. -/
theorem C2_witness :
    findOne ([⟨"k", JSVal.vNull, 5, false⟩] : List CacheDoc) "k"
        = some ⟨"k", JSVal.vNull, 5, false⟩ ∧
    (5 : Int) < 10 ∧
    ((get gunzipTag 10 ⟨false, none, [⟨"k", JSVal.vNull, 5, false⟩]⟩ "k").2
        = .ok none ∧
      (get gunzipTag 10 ⟨false, none, [⟨"k", JSVal.vNull, 5, false⟩]⟩ "k").1
        = (del ⟨false, none, [⟨"k", JSVal.vNull, 5, false⟩]⟩ "k").1) :=
  ⟨by decide, by decide,
    C2_get_expired_deletes_and_misses gunzipTag 10
      ⟨false, none, [⟨"k", JSVal.vNull, 5, false⟩]⟩ "k"
      ⟨"k", JSVal.vNull, 5, false⟩ (by decide) (by decide)⟩

/-- C7: absence of a key is never an error — `get` on a key with no stored
document succeeds with a null value and leaves the state unchanged, and
`del` on such a key succeeds (removal count zero, state unchanged). -/
theorem C7_absent_is_success
    (gunzip : List Nat → Except String (List Nat)) (now : Int)
    (st : MongoStoreState) (key : String)
    (h : findOne st.collection key = none) :
    (get gunzip now st key).2 = .ok none ∧
    (get gunzip now st key).1 = st ∧
    (del st key).2 = .ok 0 ∧
    (del st key).1 = st := by
  have hrem := collectionRemove_of_findOne_none st.collection key h
  refine ⟨?_, ?_, ?_, ?_⟩
  · simp only [get, h]
  · simp only [get, h]
  · simp only [del, hrem]
  · simp only [del, hrem]

/-- Witness for C7 at a concrete store not holding the key. -/
theorem C7_witness :
    findOne ([⟨"other", JSVal.vNum 1, 99, false⟩] : List CacheDoc) "k" = none ∧
    ((get gunzipTag 0 ⟨false, none, [⟨"other", JSVal.vNum 1, 99, false⟩]⟩ "k").2
        = .ok none ∧
      (get gunzipTag 0 ⟨false, none, [⟨"other", JSVal.vNum 1, 99, false⟩]⟩ "k").1
        = ⟨false, none, [⟨"other", JSVal.vNum 1, 99, false⟩]⟩ ∧
      (del (⟨false, none, [⟨"other", JSVal.vNum 1, 99, false⟩]⟩ : MongoStoreState) "k").2
        = .ok 0 ∧
      (del (⟨false, none, [⟨"other", JSVal.vNum 1, 99, false⟩]⟩ : MongoStoreState) "k").1
        = ⟨false, none, [⟨"other", JSVal.vNum 1, 99, false⟩]⟩) :=
  ⟨by decide,
    C7_absent_is_success gunzipTag 0
      ⟨false, none, [⟨"other", JSVal.vNum 1, 99, false⟩]⟩ "k" (by decide)⟩

/-- C8: `reset` removes every document — the resulting collection is empty,
the same remove-all is performed whatever value is passed as the first
argument, and `get` afterwards reports absence for any key, in particular
for a key that was just set. -/
theorem C8_reset_removes_everything (st : MongoStoreState)
    (kArg kArg2 : Option JSVal)
    (gunzip gzip : List Nat → Except String (List Nat))
    (now now2 tset : Int) (key key2 : String) (val : JSVal)
    (optTtl : Option Int) :
    (reset st kArg).1.collection = [] ∧
    reset st kArg = reset st kArg2 ∧
    (get gunzip now (reset st kArg).1 key).2 = .ok none ∧
    (get gunzip now2 (reset (set gzip tset st key2 val optTtl).1 kArg).1 key2).2
      = .ok none := by
  refine ⟨rfl, rfl, ?_, ?_⟩
  · simp only [get, reset, findOne]
  · simp only [get, reset, findOne]

/-- C9: `isCacheableValue` is a pure predicate returning `false` exactly on
the two empty sentinels (null and undefined) and `true` on every other
value, including zero, the empty string and `false`. -/
theorem C9_isCacheableValue_spec (v : JSVal) :
    (isCacheableValue v = false ↔ (v = JSVal.vNull ∨ v = JSVal.vUndefined)) ∧
    isCacheableValue JSVal.vNull = false ∧
    isCacheableValue JSVal.vUndefined = false ∧
    isCacheableValue (JSVal.vNum 0) = true ∧
    isCacheableValue (JSVal.vStr "") = true ∧
    isCacheableValue (JSVal.vBool false) = true := by
  refine ⟨?_, rfl, rfl, rfl, rfl, rfl⟩
  cases v <;> simp [isCacheableValue]

/-- C1 counterexample: the claim says `set` with `options.ttl = 0` stores
`expiresAt = now`.  On the code, at `now = 0` with no store-level TTL, the
`(ttl || 60)` fallback of src/index.js:214 turns the explicit zero into
60 seconds: the stored `expiresAt` is `60000`, not `0`. -/
theorem C1_counterexample :
    (set gzipTag 0 ⟨false, none, []⟩ "k" JSVal.vNull (some 0)).1.collection
      = [⟨"k", JSVal.vNull, 60000, false⟩] ∧
    (60000 : Int) ≠ 0 + 0 * 1000 := by
  exact ⟨by decide, by decide⟩

/-- C1 (amended): the TTL selection picks the per-call `options.ttl` when
supplied (an explicit zero included) over the store-level TTL, but the
stored `expiresAt` is `now + (ttl || 60) * 1000`: a nonzero selected TTL
`t` gives `now + t * 1000`, while a selected TTL of zero — explicit or
store-level — and an unset TTL all give `now + 60000`. -/
theorem C1_effective_ttl (gzip : List Nat → Except String (List Nat))
    (now : Int) (st : MongoStoreState) (key : String) (val : JSVal)
    (optTtl : Option Int) (t : Int)
    (hc : st.compression = false) (ht : t ≠ 0) :
    findOne (set gzip now st key val optTtl).1.collection key
      = some ⟨key, val, now + effectiveTtl optTtl st.ttl * 1000, false⟩ ∧
    effectiveTtl (some t) st.ttl = t ∧
    effectiveTtl (some 0) st.ttl = 60 ∧
    effectiveTtl none (some t) = t ∧
    effectiveTtl none (some 0) = 60 ∧
    effectiveTtl none none = 60 := by
  refine ⟨?_, ?_, rfl, ?_, rfl, rfl⟩
  · rw [set_nocompress gzip now st key val optTtl hc]
    exact findOne_collectionUpdate st.collection key _ rfl
  · simp [effectiveTtl, selectTtl, ttlOr60, ht]
  · simp [effectiveTtl, selectTtl, ttlOr60, ht]

/-- Witness for the amended C1 at a concrete call: per-call TTL 7 on a store
with default TTL 9 and compression off. -/
theorem C1_witness :
    (⟨false, some 9, []⟩ : MongoStoreState).compression = false ∧
    (7 : Int) ≠ 0 ∧
    (findOne (set gzipTag 100 ⟨false, some 9, []⟩ "k" (JSVal.vStr "v")
          (some 7)).1.collection "k"
        = some ⟨"k", JSVal.vStr "v",
            100 + effectiveTtl (some 7) (some 9) * 1000, false⟩ ∧
      effectiveTtl (some 7) (some 9) = 7 ∧
      effectiveTtl (some 0) (some 9) = 60 ∧
      effectiveTtl none (some 7) = 7 ∧
      effectiveTtl none (some 0) = 60 ∧
      effectiveTtl none none = 60) :=
  ⟨rfl, by decide,
    C1_effective_ttl gzipTag 100 ⟨false, some 9, []⟩ "k" (JSVal.vStr "v")
      (some 7) 7 rfl (by decide)⟩

/-- C10: when compression is enabled and the codec rejects the binary
payload, `set` reports the compression error and performs no store write —
the collection (indeed the whole store state) is unchanged. -/
theorem C10_compress_error_aborts (gzip : List Nat → Except String (List Nat))
    (now : Int) (st : MongoStoreState) (key : String) (optTtl : Option Int)
    (bytes : List Nat) (e : String)
    (hc : st.compression = true) (hg : gzip bytes = .error e) :
    (set gzip now st key (.vBuf bytes) optTtl).2 = .error e ∧
    (set gzip now st key (.vBuf bytes) optTtl).1 = st := by
  rw [set_compress_buffer_error gzip now st key bytes e optTtl hc hg]
  exact ⟨rfl, rfl⟩

/-- Witness for C10 with the flaky codec rejecting the payload `[9]`. -/
theorem C10_witness :
    (⟨true, none, [⟨"a", JSVal.vNum 3, 7, false⟩]⟩ : MongoStoreState).compression
        = true ∧
    gzipFlaky [9] = .error "boom" ∧
    ((set gzipFlaky 0 ⟨true, none, [⟨"a", JSVal.vNum 3, 7, false⟩]⟩ "k"
          (JSVal.vBuf [9]) none).2 = .error "boom" ∧
      (set gzipFlaky 0 ⟨true, none, [⟨"a", JSVal.vNum 3, 7, false⟩]⟩ "k"
          (JSVal.vBuf [9]) none).1
        = ⟨true, none, [⟨"a", JSVal.vNum 3, 7, false⟩]⟩) :=
  ⟨rfl, rfl,
    C10_compress_error_aborts gzipFlaky 0
      ⟨true, none, [⟨"a", JSVal.vNum 3, 7, false⟩]⟩ "k" none [9] "boom" rfl rfl⟩

/-- A value satisfying the `Buffer.isBuffer` test is a binary blob. -/
theorem jsIsBuffer_true (v : JSVal) (h : jsIsBuffer v = true) :
    ∃ b, v = JSVal.vBuf b := by
  cases v with
  | vBuf b => exact ⟨b, rfl⟩
  | vNull => simp [jsIsBuffer] at h
  | vUndefined => simp [jsIsBuffer] at h
  | vBool b => simp [jsIsBuffer] at h
  | vNum n => simp [jsIsBuffer] at h
  | vStr s => simp [jsIsBuffer] at h

/-- Bool negation helper: a Bool that is not `false` is `true`. -/
theorem bool_true_of_ne_false (b : Bool) (h : ¬(b = false)) : b = true := by
  cases b
  · exact absurd rfl h
  · rfl

/-- Every `set` call either leaves the collection unchanged (compression
error) or upserts one document carrying the requested key. -/
theorem set_collection_cases (gzip : List Nat → Except String (List Nat))
    (now : Int) (st : MongoStoreState) (key : String) (val : JSVal)
    (optTtl : Option Int) :
    (set gzip now st key val optTtl).1.collection = st.collection ∨
    ∃ doc : CacheDoc, doc.key = key ∧
      (set gzip now st key val optTtl).1.collection
        = collectionUpdate st.collection key doc := by
  by_cases hc : st.compression = false
  · exact Or.inr ⟨_, rfl, by rw [set_nocompress gzip now st key val optTtl hc]⟩
  · have hct : st.compression = true := bool_true_of_ne_false _ hc
    by_cases hb : jsIsBuffer val = true
    · obtain ⟨bytes, rfl⟩ := jsIsBuffer_true val hb
      cases hg : gzip bytes with
      | error e =>
        exact Or.inl (by
          rw [set_compress_buffer_error gzip now st key bytes e optTtl hct hg])
      | ok c =>
        exact Or.inr ⟨_, rfl, by
          rw [set_compress_buffer_ok gzip now st key bytes c optTtl hct hg]⟩
    · have hnb : jsIsBuffer val = false := by
        cases hv : jsIsBuffer val
        · rfl
        · exact absurd hv hb
      exact Or.inr ⟨_, rfl, by
        rw [set_compress_nonbuffer gzip now st key val optTtl hct hnb]⟩

/-- C4: per-key uniqueness of the collection is preserved by every adapter
operation — `set` upserts by key, `del` and `reset` only remove — and the
uniqueness-flagged index the constructor declares is on the `expiresAt`
field, not on `key`. -/
theorem C4_unique_key_invariant (gzip : List Nat → Except String (List Nat))
    (now : Int) (st : MongoStoreState) (key : String) (val : JSVal)
    (optTtl : Option Int) (kArg : Option JSVal)
    (h : (st.collection.map CacheDoc.key).Nodup) :
    ((set gzip now st key val optTtl).1.collection.map CacheDoc.key).Nodup ∧
    ((del st key).1.collection.map CacheDoc.key).Nodup ∧
    ((reset st kArg).1.collection.map CacheDoc.key).Nodup ∧
    (cacheIndexSpec st.ttl).field = "expiresAt" ∧
    (cacheIndexSpec st.ttl).field ≠ "key" ∧
    (cacheIndexSpec st.ttl).unique = true := by
  refine ⟨?_, nodup_collectionRemove st.collection key h, by simp [reset],
    rfl, by simp [cacheIndexSpec], rfl⟩
  rcases set_collection_cases gzip now st key val optTtl with hsame | ⟨doc, hk, hupd⟩
  · rw [hsame]; exact h
  · rw [hupd]; exact nodup_collectionUpdate st.collection key doc hk h

/-- Witness for C4 at a concrete two-document store. -/
theorem C4_witness :
    ((([⟨"a", JSVal.vNum 1, 5, false⟩, ⟨"b", JSVal.vNum 2, 6, false⟩] :
          List CacheDoc).map CacheDoc.key).Nodup) ∧
    (((set gzipTag 0 ⟨false, some 3, [⟨"a", JSVal.vNum 1, 5, false⟩,
            ⟨"b", JSVal.vNum 2, 6, false⟩]⟩ "a" (JSVal.vNum 9)
          none).1.collection.map CacheDoc.key).Nodup ∧
      (((del (⟨false, some 3, [⟨"a", JSVal.vNum 1, 5, false⟩,
            ⟨"b", JSVal.vNum 2, 6, false⟩]⟩ : MongoStoreState)
          "a").1.collection.map CacheDoc.key).Nodup) ∧
      (((reset (⟨false, some 3, [⟨"a", JSVal.vNum 1, 5, false⟩,
            ⟨"b", JSVal.vNum 2, 6, false⟩]⟩ : MongoStoreState)
          none).1.collection.map CacheDoc.key).Nodup) ∧
      (cacheIndexSpec (some 3)).field = "expiresAt" ∧
      (cacheIndexSpec (some 3)).field ≠ "key" ∧
      (cacheIndexSpec (some 3)).unique = true) :=
  ⟨by decide,
    C4_unique_key_invariant gzipTag 0
      ⟨false, some 3, [⟨"a", JSVal.vNum 1, 5, false⟩,
        ⟨"b", JSVal.vNum 2, 6, false⟩]⟩ "a" (JSVal.vNum 9) none none
      (by decide)⟩

/-- C3: for any codec pair where decompression inverts compression, `set`
followed by `get` on a still-live entry returns the value unchanged for a
non-binary value (whatever the compression setting), and returns bytes
equal to the original for a binary blob stored with compression enabled
(gzip on write round-trips through gunzip on read). -/
theorem C3_set_get_roundtrip (gzip gunzip : List Nat → Except String (List Nat))
    (hinv : ∀ b c, gzip b = .ok c → gunzip c = .ok b)
    (now t2 : Int) (stA stB : MongoStoreState) (key : String) (val : JSVal)
    (optTtl : Option Int) (bytes c : List Nat)
    (hnb : jsIsBuffer val = false)
    (hliveA : ¬(now + effectiveTtl optTtl stA.ttl * 1000 < t2))
    (hcomp : stB.compression = true)
    (hliveB : ¬(now + effectiveTtl optTtl stB.ttl * 1000 < t2))
    (hgz : gzip bytes = .ok c) :
    (get gunzip t2 (set gzip now stA key val optTtl).1 key).2 = .ok (some val) ∧
    (get gunzip t2 (set gzip now stB key (.vBuf bytes) optTtl).1 key).2
      = .ok (some (.vBuf bytes)) := by
  constructor
  · have hstate : (set gzip now stA key val optTtl).1
        = { stA with collection := collectionUpdate stA.collection key ⟨key, val, now + effectiveTtl optTtl stA.ttl * 1000, false⟩ } := by
      by_cases hcA : stA.compression = false
      · rw [set_nocompress gzip now stA key val optTtl hcA]
      · rw [set_compress_nonbuffer gzip now stA key val optTtl
            (bool_true_of_ne_false _ hcA) hnb]
    have hf := findOne_collectionUpdate stA.collection key
      ⟨key, val, now + effectiveTtl optTtl stA.ttl * 1000, false⟩ rfl
    rw [hstate]
    simp only [get, hf, if_neg hliveA]
    simp
  · have hstate : (set gzip now stB key (.vBuf bytes) optTtl).1
        = { stB with collection := collectionUpdate stB.collection key ⟨key, .vBuf c, now + effectiveTtl optTtl stB.ttl * 1000, true⟩ } := by
      rw [set_compress_buffer_ok gzip now stB key bytes c optTtl hcomp hgz]
    have hf := findOne_collectionUpdate stB.collection key
      ⟨key, .vBuf c, now + effectiveTtl optTtl stB.ttl * 1000, true⟩ rfl
    rw [hstate]
    simp only [get, hf, if_neg hliveB, decompressVal, hinv bytes c hgz]
    simp

/-- Witness for C3 with the tagging codec on a fresh store. -/
theorem C3_witness :
    jsIsBuffer (JSVal.vStr "v") = false ∧
    (⟨true, none, []⟩ : MongoStoreState).compression = true ∧
    gzipTag [1, 2] = .ok [0, 1, 2] ∧
    ((get gunzipTag 0 (set gzipTag 0 ⟨false, none, []⟩ "k" (JSVal.vStr "v")
            none).1 "k").2 = .ok (some (JSVal.vStr "v")) ∧
      (get gunzipTag 0 (set gzipTag 0 ⟨true, none, []⟩ "k"
            (JSVal.vBuf [1, 2]) none).1 "k").2
        = .ok (some (JSVal.vBuf [1, 2]))) :=
  ⟨rfl, rfl, rfl,
    C3_set_get_roundtrip gzipTag gunzipTag gzipTag_inv 0 0
      ⟨false, none, []⟩ ⟨true, none, []⟩ "k" (JSVal.vStr "v") none
      [1, 2] [0, 1, 2] rfl (by decide) rfl (by decide) rfl⟩

/-- C5: a `set` call that results in a write stores a compressed value (with
the `compressed` flag) exactly when the store's compression flag is on and
the payload is a binary blob; a non-binary payload is always stored
verbatim with the flag clear, whatever the compression setting. -/
theorem C5_compression_gate (gzip : List Nat → Except String (List Nat))
    (now : Int) (st : MongoStoreState) (key : String) (val val2 : JSVal)
    (optTtl : Option Int) (r : Option JSVal)
    (hok : (set gzip now st key val optTtl).2 = .ok r)
    (hnb : jsIsBuffer val2 = false) :
    (findOne (set gzip now st key val optTtl).1.collection key).map
        (fun d => d.compressed) = some (st.compression && jsIsBuffer val) ∧
    findOne (set gzip now st key val2 optTtl).1.collection key
      = some ⟨key, val2, now + effectiveTtl optTtl st.ttl * 1000, false⟩ := by
  constructor
  · by_cases hc : st.compression = false
    · rw [set_nocompress gzip now st key val optTtl hc]
      have hf := findOne_collectionUpdate st.collection key
        ⟨key, val, now + effectiveTtl optTtl st.ttl * 1000, false⟩ rfl
      simp [hf, hc]
    · have hct : st.compression = true := bool_true_of_ne_false _ hc
      by_cases hb : jsIsBuffer val = true
      · obtain ⟨bytes, rfl⟩ := jsIsBuffer_true val hb
        cases hg : gzip bytes with
        | error e =>
          rw [set_compress_buffer_error gzip now st key bytes e optTtl hct hg]
            at hok
          simp at hok
        | ok cc =>
          rw [set_compress_buffer_ok gzip now st key bytes cc optTtl hct hg]
          have hf := findOne_collectionUpdate st.collection key
            ⟨key, JSVal.vBuf cc, now + effectiveTtl optTtl st.ttl * 1000, true⟩
            rfl
          simp [hf, hct, jsIsBuffer]
      · have hnb1 : jsIsBuffer val = false := by
          cases hv : jsIsBuffer val
          · rfl
          · exact absurd hv hb
        rw [set_compress_nonbuffer gzip now st key val optTtl hct hnb1]
        have hf := findOne_collectionUpdate st.collection key
          ⟨key, val, now + effectiveTtl optTtl st.ttl * 1000, false⟩ rfl
        simp [hf, hct, hnb1]
  · by_cases hc : st.compression = false
    · rw [set_nocompress gzip now st key val2 optTtl hc]
      exact findOne_collectionUpdate st.collection key _ rfl
    · rw [set_compress_nonbuffer gzip now st key val2 optTtl
        (bool_true_of_ne_false _ hc) hnb]
      exact findOne_collectionUpdate st.collection key _ rfl

/-- Witness for C5: a binary payload under compression gets the flag, a
string payload does not. -/
theorem C5_witness :
    (set gzipTag 0 ⟨true, none, []⟩ "k" (JSVal.vBuf [4]) none).2
        = .ok (some (JSVal.vBuf [4])) ∧
    jsIsBuffer (JSVal.vStr "s") = false ∧
    ((findOne (set gzipTag 0 ⟨true, none, []⟩ "k" (JSVal.vBuf [4])
            none).1.collection "k").map (fun d => d.compressed)
        = some ((⟨true, none, []⟩ : MongoStoreState).compression
            && jsIsBuffer (JSVal.vBuf [4])) ∧
      findOne (set gzipTag 0 ⟨true, none, []⟩ "k" (JSVal.vStr "s")
          none).1.collection "k"
        = some ⟨"k", JSVal.vStr "s", 0 + effectiveTtl none none * 1000,
            false⟩) :=
  ⟨rfl, rfl,
    C5_compression_gate gzipTag 0 ⟨true, none, []⟩ "k" (JSVal.vBuf [4])
      (JSVal.vStr "s") none (some (JSVal.vBuf [4])) rfl rfl⟩

/-- Every `set` call either confirms the original value to its callback or
reports an error; no other callback outcome exists. -/
theorem set_callback_cases (gzip : List Nat → Except String (List Nat))
    (now : Int) (st : MongoStoreState) (key : String) (val : JSVal)
    (optTtl : Option Int) :
    (set gzip now st key val optTtl).2 = .ok (some val) ∨
    ∃ e, (set gzip now st key val optTtl).2 = .error e := by
  by_cases hc : st.compression = false
  · exact Or.inl (by rw [set_nocompress gzip now st key val optTtl hc])
  · have hct : st.compression = true := bool_true_of_ne_false _ hc
    by_cases hb : jsIsBuffer val = true
    · obtain ⟨bytes, rfl⟩ := jsIsBuffer_true val hb
      cases hg : gzip bytes with
      | error e =>
        exact Or.inr ⟨e, by
          rw [set_compress_buffer_error gzip now st key bytes e optTtl hct hg]⟩
      | ok c =>
        exact Or.inl (by
          rw [set_compress_buffer_ok gzip now st key bytes c optTtl hct hg])
    · have hnb : jsIsBuffer val = false := by
        cases hv : jsIsBuffer val
        · rfl
        · exact absurd hv hb
      exact Or.inl (by
        rw [set_compress_nonbuffer gzip now st key val optTtl hct hnb])

/-- C6: the callback of a successful `set` receives the original pre-storage
value — even when the stored document holds the compressed encoding — a
falsy driver result is reported as null, and both store errors and
compression errors are propagated unchanged. -/
theorem C6_set_reports_original (gzip : List Nat → Except String (List Nat))
    (now : Int) (st : MongoStoreState) (key : String) (val : JSVal)
    (optTtl : Option Int) (bytes bytes2 c : List Nat) (e : String)
    (hc : st.compression = true)
    (hg : gzip bytes = .error e) (hg2 : gzip bytes2 = .ok c) :
    (cbValue (set gzip now st key val optTtl).2 = some (some val) ∨
      cbValue (set gzip now st key val optTtl).2 = none) ∧
    (set gzip now st key (.vBuf bytes2) optTtl).2
      = .ok (some (.vBuf bytes2)) ∧
    findOne (set gzip now st key (.vBuf bytes2) optTtl).1.collection key
      = some ⟨key, .vBuf c, now + effectiveTtl optTtl st.ttl * 1000, true⟩ ∧
    updateCallback val (.error e) = .error e ∧
    updateCallback val (.ok none) = .ok none ∧
    updateCallback val (.ok (some ())) = .ok (some val) ∧
    (set gzip now st key (.vBuf bytes) optTtl).2 = .error e := by
  refine ⟨?_, ?_, ?_, rfl, rfl, rfl, ?_⟩
  · rcases set_callback_cases gzip now st key val optTtl with hok | ⟨e2, herr⟩
    · exact Or.inl (by rw [hok]; rfl)
    · exact Or.inr (by rw [herr]; rfl)
  · rw [set_compress_buffer_ok gzip now st key bytes2 c optTtl hc hg2]
  · rw [set_compress_buffer_ok gzip now st key bytes2 c optTtl hc hg2]
    exact findOne_collectionUpdate st.collection key _ rfl
  · rw [set_compress_buffer_error gzip now st key bytes e optTtl hc hg]

/-- Witness for C6 with the flaky codec: a string payload, a compressible
buffer and a rejected buffer, on a compressing store. -/
theorem C6_witness :
    (⟨true, none, []⟩ : MongoStoreState).compression = true ∧
    gzipFlaky [9] = .error "boom" ∧
    gzipFlaky [1] = .ok [0, 1] ∧
    ((cbValue (set gzipFlaky 0 ⟨true, none, []⟩ "k" (JSVal.vStr "w")
            none).2 = some (some (JSVal.vStr "w")) ∨
        cbValue (set gzipFlaky 0 ⟨true, none, []⟩ "k" (JSVal.vStr "w")
            none).2 = none) ∧
      (set gzipFlaky 0 ⟨true, none, []⟩ "k" (JSVal.vBuf [1]) none).2
        = .ok (some (JSVal.vBuf [1])) ∧
      findOne (set gzipFlaky 0 ⟨true, none, []⟩ "k" (JSVal.vBuf [1])
          none).1.collection "k"
        = some ⟨"k", JSVal.vBuf [0, 1], 0 + effectiveTtl none none * 1000,
            true⟩ ∧
      updateCallback (JSVal.vStr "w") (.error "boom") = .error "boom" ∧
      updateCallback (JSVal.vStr "w") (.ok none) = .ok none ∧
      updateCallback (JSVal.vStr "w") (.ok (some ()))
        = .ok (some (JSVal.vStr "w")) ∧
      (set gzipFlaky 0 ⟨true, none, []⟩ "k" (JSVal.vBuf [9]) none).2
        = .error "boom") :=
  ⟨rfl, rfl, rfl,
    C6_set_reports_original gzipFlaky 0 ⟨true, none, []⟩ "k"
      (JSVal.vStr "w") none [9] [1] [0, 1] "boom" rfl rfl rfl⟩

end MongoCache
